import Mathlib

/-!
# Verification of the TristarGTFS realtime matcher (tristargtfs_realtime.py)

Shallow embedding of the matching and snapshot-assembly engine of
`tristargtfs_realtime.py`.  Python dictionaries that are only read through
key lookup are modelled as functions into `Option`; the one dictionary whose
iteration order is observable (`RTParser.trip_delays`, enumerated by
`RTParser.updates`) is modelled as an insertion-ordered association list with
Python's assignment semantics (existing keys keep their position).  Strings
are modelled as Lean `String`s; CSV/JSON fields that the source immediately
parses with `int` / `strptime` (and whose parse failures no claim exercises)
are carried in parsed form, with the parse noted at the field.  Uncaught
Python exceptions are modelled as `Option`/`Except` error results.
-/

namespace TristarRT

/-- A Python `dict` used only through `d[k] = v` assignment and key lookup,
modelled as a function to `Option`. -/
def dictSet {α β : Type} [DecidableEq α] (m : α → Option β) (k : α) (v : β) :
    α → Option β :=
  fun q => if q = k then some v else m q

/-- A freshly constructed empty Python `dict` (lookup view). -/
def emptyDict {α β : Type} : α → Option β := fun _ => none

/-- Python format spec `"{:0>2d}".format(n)`: decimal digits of `n`,
left-padded with a zero to width two. -/
def pad2 (n : Nat) : String :=
  if n < 10 then "0" ++ toString n else toString n

/-- The string `"{:0>2d}:{:0>2d}".format(h, m)`. -/
def fmtHM (h m : Nat) : String := pad2 h ++ ":" ++ pad2 m

/-- `readable_time` (tristargtfs_realtime.py lines 25-28).  The source takes
the GTFS departure time string `"H:M:S"` and parses it with
`map(int, departure_time.split(":"))`; we receive the three parsed fields.
The hour is reduced modulo 24 (`h = h % 24`) and the seconds are dropped. -/
def readable_time (h m s : Nat) : String :=
  fmtHM (h % 24) m

/-- Service-day choice in `GdanskData.load_gtfs` (lines 71-78).  The current
local datetime is modelled as a calendar-day index plus the local hour and
minute; the source reads only `today.hour` and subtracts one day when it is
before 4 AM. -/
def service_day (day : Int) (hour minute : Nat) : Int :=
  if hour < 4 then day - 1 else day

/-- One row of `calendar_dates.txt`. -/
structure CalendarDateRow where
  date : String
  service_id : String
  exception_type : String
deriving DecidableEq

/-- The `self.services` set after the calendar loop of `GdanskData.load_gtfs`
(lines 83-85): every row whose `date` equals the formatted service day
contributes its `service_id`.  The Python `set` is observed only through
membership, so a list of the added ids is a faithful model. -/
def load_services (rows : List CalendarDateRow) (today_str : String) : List String :=
  (rows.filter (fun row => row.date == today_str)).map (fun row => row.service_id)

/-- One row of `stop_times.txt`.  The `departure_time` field `"H:M:S"` is
carried parsed (`readable_time` applies `map(int, ...split(":"))` to it). -/
structure StopTimeRow where
  trip_id : String
  stop_id : String
  dep_h : Nat
  dep_m : Nat
  dep_s : Nat
deriving DecidableEq

/-- Composite key of the nested dictionary
`stop_trips[stop_id][route_id][static_time]`; the three nested `dict`
levels are observed only through the chained lookup in
`RTParser.load_delays` (lines 194-196), which is exactly lookup of the
triple. -/
abbrev StopKey := String × String × String

/-- The key under which one stop-times row is filed by the loop body of
lines 103-123: `none` when `row.trip_id` is not an active trip
(`if row["trip_id"] not in self.trips_route: continue`). -/
def stop_key (trips_route : String → Option String) (row : StopTimeRow) :
    Option StopKey :=
  (trips_route row.trip_id).map
    (fun route => (row.stop_id, route, readable_time row.dep_h row.dep_m row.dep_s))

/-- One iteration of the stop-times loop: `self.stop_trips[stop][route][static_time] = row["trip_id"]`
(line 123), an unconditional dictionary assignment. -/
def stop_trips_step (trips_route : String → Option String)
    (st : StopKey → Option String) (row : StopTimeRow) : StopKey → Option String :=
  match stop_key trips_route row with
  | none => st
  | some k => dictSet st k row.trip_id

/-- The `self.stop_trips` index built by `GdanskData.load_gtfs`
(lines 103-123), starting from empty dictionaries. -/
def load_stop_trips (trips_route : String → Option String)
    (rows : List StopTimeRow) : StopKey → Option String :=
  rows.foldl (stop_trips_step trips_route) emptyDict

/-- The lookup performed per delay report in `RTParser.load_delays`
(lines 194-200): the chained `.get` returning `None` on a missing key,
followed by `if not trip_id: continue`, which also drops a falsy (empty)
trip id. -/
def match_report (stop_trips : StopKey → Option String)
    (stop_id route_id time : String) : Option String :=
  match stop_trips (stop_id, route_id, time) with
  | none => none
  | some t => if t = "" then none else some t

/-- Specification-side description of the collision policy actually
implemented by `load_stop_trips`: the trip id of the last row (in iteration
order) that files under key `k`. -/
def last_match (trips_route : String → Option String) (k : StopKey) :
    List StopTimeRow → Option String
  | [] => none
  | row :: rest =>
    match last_match trips_route k rest with
    | some t => some t
    | none => if stop_key trips_route row = some k then some row.trip_id else none

/-! ## The realtime side: RTParser -/

/-- One accumulated per-stop update, as appended to
`self.trip_delays[trip_id]` (lines 232-237). -/
structure StopUpdate where
  stop_id : String
  timestamp : Int
  delay : Int
  estimated : String
deriving DecidableEq

/-- One element of `delay_container["delay"]` in the live delay feed
(lines 188-237).  `routeId` and `vehicleId` are carried through `str(...)`;
`theoreticalTime` and `estimatedTime` are the raw `"HH:MM"` strings;
`timestamp` is parsed by `strptime(..., "%H:%M:%S")` and carried here as
seconds of the day (a parse failure, which no claim exercises, would abort
the run). -/
structure DelayRecord where
  routeId : String
  theoreticalTime : String
  ts_seconds : Nat
  estimatedTime : String
  delayInSeconds : Int
  vehicleId : String
deriving DecidableEq

/-- `datetime.today()` as observed by `load_delays`: a calendar-day index
plus the seconds elapsed since local midnight.  The source compares
`datetime.time` values, which at whole-second granularity is comparison of
seconds of the day. -/
structure Now where
  day : Int
  sec : Nat
deriving DecidableEq

/-- The calendar day assigned to a report timestamp by the
`Fix timestamp` block (lines 202-215): the report is pushed to the previous
day exactly when its time of day exceeds `(now + 2 minutes).time()`, the
time-of-day of the shifted clock (which wraps past midnight). -/
def update_day (now : Now) (update_sec : Nat) : Int :=
  if (now.sec + 120) % 86400 < update_sec then now.day - 1 else now.day

/-- `round(update_time.timestamp())` for a datetime assembled from a day and
a second-of-day, abstracting the fixed epoch offset. -/
def day_timestamp (day : Int) (sec : Nat) : Int :=
  day * 86400 + sec

/-- `re.match(r"2\d:\d\d", s)` as a Boolean: anchored at the start of the
string, arbitrary trailing characters.  (`\d` is modelled as an ASCII digit;
all strings reaching this check are ASCII.) -/
def matches2d (s : String) : Bool :=
  match s.data with
  | '2' :: c1 :: c2 :: c3 :: c4 :: _ =>
    c1.isDigit && c2 = ':' && c3.isDigit && c4.isDigit
  | _ => false

/-- Python `s.split(":")` on the character list: `"".split(":") == [""]`,
separators produce empty fields. -/
def split_colon : List Char → List (List Char)
  | [] => [[]]
  | c :: rest =>
    if c = ':' then [] :: split_colon rest
    else
      match split_colon rest with
      | s :: ss => (c :: s) :: ss
      | [] => [[c]]

/-- Accumulating decimal-digit reader for `parse_int`. -/
def digits_go (acc : Nat) : List Char → Option Nat
  | [] => some acc
  | c :: rest =>
    if c.isDigit then digits_go (acc * 10 + (c.toNat - 48)) rest else none

/-- Python `int(s)` restricted to nonnegative decimal literals, the only
shape the feed produces; `none` models the `ValueError` on anything else
(including the empty string). -/
def parse_int (l : List Char) : Option Nat :=
  match l with
  | [] => none
  | _ => digits_go 0 l

/-- `map(int, s.split(":"))` unpacked into exactly two values, as in
`estimate_h, estimate_m = map(int, estimate.split(":"))` (line 226):
`none` models the `ValueError` raised on a malformed string (wrong number
of colon-separated fields, or a field that is not a decimal literal). -/
def parse_hm (s : String) : Option (Nat × Nat) :=
  match split_colon s.data with
  | [a, b] =>
    match parse_int a, parse_int b with
    | some h, some m => some (h, m)
    | _, _ => none
  | _ => none

/-- The `Fix estimates` block (lines 223-231): if any estimate already
recorded for the trip matches `2\d:\d\d`, re-parse the incoming estimate,
add 24 to its hour and re-format it; otherwise keep it unchanged.  `none`
models the uncaught `ValueError` from `int`. -/
def fix_estimate (prev : List StopUpdate) (estimate : String) : Option String :=
  if prev.any (fun u => matches2d u.estimated) then
    (parse_hm estimate).map (fun hm => fmtHM (hm.1 + 24) hm.2)
  else
    some estimate

/-- A stored vehicle position (`self.vehicles[veh_id]`, lines 252-258).
`speed` is `veh["Speed"] / 3.6`; the claims under verification never
depend on floating-point rounding, so the float arithmetic is modelled
exactly over `Rat`. -/
structure Vehicle where
  code : String
  timestamp : Int
  speed : Rat
  lat : Rat
  lon : Rat
deriving DecidableEq

/-- One element of the live position feed (`req["Vehicles"]`, lines
246-250).  `DataGenerated` is parsed with `strptime` and carried as epoch
seconds. -/
structure VehicleReport where
  vehicleId : String
  vehicleCode : String
  line : String
  gpsQuality : Int
  dataGenerated : Int
  speed_kmh : Rat
  lat : Rat
  lon : Rat
deriving DecidableEq

/-- `RTParser.load_vehicles` (lines 239-258): store each report with a
non-empty `Line` and `GPSQuality == 3` under its vehicle id, latest wins.
The empty string models a falsy `Line` (`if not veh["Line"]`). -/
def load_vehicles_run (vehicles : String → Option Vehicle)
    (feed : List VehicleReport) : String → Option Vehicle :=
  feed.foldl
    (fun vs veh =>
      if veh.line = "" ∨ veh.gpsQuality ≠ 3 then vs
      else
        dictSet vs veh.vehicleId
          { code := veh.vehicleCode,
            timestamp := veh.dataGenerated,
            speed := veh.speed_kmh / (3.6 : Rat),
            lat := veh.lat,
            lon := veh.lon })
    vehicles

/-- Association-list lookup with Python-`dict` semantics (first entry with
the key; the building operations below keep keys unique). -/
def alGet {β : Type} (m : List (String × β)) (k : String) : Option β :=
  (m.find? (fun p => p.1 == k)).map (fun p => p.2)

/-- Python `dict` assignment `m[k] = v` on an insertion-ordered association
list: an existing key keeps its position and gets the new value, a new key
is appended. -/
def alSet {β : Type} (m : List (String × β)) (k : String) (v : β) :
    List (String × β) :=
  if (m.find? (fun p => p.1 == k)).isSome then
    m.map (fun p => if p.1 == k then (k, v) else p)
  else
    m ++ [(k, v)]

/-- The mutable state of `RTParser` that survives between the phases of a
cycle (and, in the source, between cycles): `trip_vehicle`, `trip_delays`
and `vehicles` (lines 145-147).  `trip_delays` is the one dictionary whose
iteration order is observed (by `updates`), hence the association list. -/
structure RTState where
  trip_vehicle : String → Option String
  trip_delays : List (String × List StopUpdate)
  vehicles : String → Option Vehicle

/-- `RTParser.__init__` (lines 145-147): all three containers start empty. -/
def rt_init : RTState :=
  { trip_vehicle := emptyDict, trip_delays := [], vehicles := emptyDict }

/-- The body of the inner loop of `RTParser.load_delays` (lines 188-237)
for one delay report of one stop: match the report against the schedule
index, drop it on a miss, otherwise normalize its timestamp, record the
vehicle id, fix the estimate against the updates already accumulated for
the trip, and append the new stop update.  `none` models the uncaught
`ValueError` of the estimate fix. -/
def process_delay (stop_trips : StopKey → Option String) (now : Now)
    (st : RTState) (stop_id : String) (d : DelayRecord) : Option RTState :=
  match match_report stop_trips stop_id d.routeId d.theoreticalTime with
  | none => some st
  | some trip_id =>
    match fix_estimate ((alGet st.trip_delays trip_id).getD []) d.estimatedTime with
    | none => none
    | some estimate =>
      some { st with
        trip_vehicle := dictSet st.trip_vehicle trip_id d.vehicleId,
        trip_delays := alSet st.trip_delays trip_id
          ((alGet st.trip_delays trip_id).getD [] ++
            [{ stop_id := stop_id,
               timestamp := day_timestamp (update_day now d.ts_seconds) d.ts_seconds,
               delay := d.delayInSeconds,
               estimated := estimate }]) }

/-- The inner `for delay in delay_container["delay"]` loop for one stop. -/
def load_delays_go (stop_trips : StopKey → Option String) (now : Now)
    (stop_id : String) : RTState → List DelayRecord → Option RTState
  | st, [] => some st
  | st, d :: ds =>
    match process_delay stop_trips now st stop_id d with
    | none => none
    | some st1 => load_delays_go stop_trips now stop_id st1 ds

/-- `RTParser.load_delays` (lines 180-237) over an already-fetched feed:
the outer `for stop_id, delay_container in req.items()` loop. -/
def load_delays_run (stop_trips : StopKey → Option String) (now : Now) :
    RTState → List (String × List DelayRecord) → Option RTState
  | st, [] => some st
  | st, (stop_id, ds) :: rest =>
    match load_delays_go stop_trips now stop_id st ds with
    | none => none
    | some st1 => load_delays_run stop_trips now st1 rest

/-! ## Snapshot assembly (`alerts`, `updates`, `create`) -/

/-- Python string comparison `a <= b`: lexicographic by code point on the
character sequences. -/
def chars_le : List Char → List Char → Bool
  | [], _ => true
  | _ :: _, [] => false
  | a :: as, b :: bs =>
    if a < b then true
    else if b < a then false
    else chars_le as bs

/-- Ordering of stop updates used by `sorted(stop_updates, key=lambda i: i["estimated"])`
(line 267): Python compares the `"HH:MM"` key strings lexicographically by
code point. -/
def est_le (a b : StopUpdate) : Prop :=
  chars_le a.estimated.data b.estimated.data = true

instance : DecidableRel est_le :=
  fun a b => inferInstanceAs (Decidable (_ = true))

instance : IsTotal StopUpdate est_le := by
  constructor
  intro a b
  unfold est_le
  generalize a.estimated.data = l1
  generalize b.estimated.data = l2
  induction l1 generalizing l2 with
  | nil => left; rfl
  | cons x xs ih =>
    cases l2 with
    | nil => right; rfl
    | cons y ys =>
      rcases lt_trichotomy x y with h | h | h
      · left; simp [chars_le, h]
      · subst h
        rcases ih ys with h2 | h2
        · left; simpa [chars_le, lt_irrefl] using h2
        · right; simpa [chars_le, lt_irrefl] using h2
      · right; simp [chars_le, h]

instance : IsTrans StopUpdate est_le := by
  constructor
  intro a b c
  unfold est_le
  generalize a.estimated.data = l1
  generalize b.estimated.data = l2
  generalize c.estimated.data = l3
  have hcons : ∀ (x y : Char) (xs ys : List Char),
      chars_le (x :: xs) (y :: ys) = true ↔
        (x < y ∨ (x = y ∧ chars_le xs ys = true)) := by
    intro x y xs ys
    by_cases h1 : x < y
    · simp [chars_le, h1]
    · by_cases h2 : y < x
      · have hne : x ≠ y := fun he => absurd (he ▸ h2) (lt_irrefl x)
        simp [chars_le, h1, h2, hne]
      · have heq : x = y := le_antisymm (not_lt.mp h2) (not_lt.mp h1)
        simp [chars_le, h1, h2, heq]
  induction l1 generalizing l2 l3 with
  | nil => intro _ _; rfl
  | cons x xs ih =>
    intro h12 h23
    cases l2 with
    | nil => simp [chars_le] at h12
    | cons y ys =>
      cases l3 with
      | nil => simp [chars_le] at h23
      | cons z zs =>
        rw [hcons] at h12 h23 ⊢
        rcases h12 with h12 | ⟨rfl, h12⟩
        · rcases h23 with h23 | ⟨rfl, h23⟩
          · exact Or.inl (lt_trans h12 h23)
          · exact Or.inl h12
        · rcases h23 with h23 | ⟨rfl, h23⟩
          · exact Or.inl h23
          · exact Or.inr ⟨rfl, ih ys zs h12 h23⟩

/-- `sorted(stop_updates, key=lambda i: i["estimated"])`: Python's `sorted`
is a stable sort, so it is extensionally the stable insertion sort with the
non-strict key order. -/
def sort_stop_updates (l : List StopUpdate) : List StopUpdate :=
  l.insertionSort est_le

/-- A `trip_update` feed entity (lines 263-276).  The serialized nested
records carry `stop_id` and `arrival.delay` of each stop update, emitted in
the sorted order; the whole `StopUpdate` is retained here so that the order
of emission is expressible. -/
structure TripUpdateEntity where
  id : String
  trip_id : String
  timestamp : Int
  delay : Int
  stop_time_update : List StopUpdate
deriving DecidableEq

/-- A companion `vehicle` feed entity (lines 278-293). -/
structure VehicleEntity where
  id : String
  trip_id : String
  lat : Rat
  lon : Rat
  speed : Rat
  vehicle_id : String
  label : String
  timestamp : Int
deriving DecidableEq

/-- An `alert` feed entity (lines 169-178). -/
structure AlertEntity where
  id : String
  header : String
  description : String
  period_start : Int
  period_end : Int
deriving DecidableEq

/-- One `FeedEntity` of the produced container. -/
inductive Entity
  | alert (a : AlertEntity)
  | trip_update (t : TripUpdateEntity)
  | vehicle (v : VehicleEntity)
deriving DecidableEq

/-- Scanner for one candidate match of `re.sub("<.*?>", "", text)` starting
just after a `<`: returns the suffix after the closing `>` if one occurs
before any newline (`.` does not match a newline), else `none`. -/
def drop_tag : List Char → Option (List Char)
  | [] => none
  | c :: rest =>
    if c = '>' then some rest
    else if c = '\n' then none
    else drop_tag rest

/-- `re.sub("<.*?>", "", text)` on the character list: leftmost shortest
matches of a `<`, a run of non-newline characters, and a `>` are removed. -/
def sub_tags : List Char → List Char
  | [] => []
  | c :: rest =>
    if c = '<' then
      match h : drop_tag rest with
      | some rest1 => sub_tags rest1
      | none => '<' :: sub_tags rest
    else c :: sub_tags rest
termination_by l => l.length
decreasing_by
  · have key : ∀ (l l1 : List Char), drop_tag l = some l1 → l1.length < l.length := by
      intro l
      induction l with
      | nil => intro l1 hh; simp [drop_tag] at hh
      | cons a as ih =>
        intro l1 hh
        simp only [drop_tag] at hh
        split at hh
        · cases hh; simp
        · split at hh
          · cases hh
          · exact Nat.lt_succ_of_lt (ih _ hh)
    exact Nat.lt_succ_of_lt (key rest rest1 h)
  · exact Nat.lt_succ_self _
  · exact Nat.lt_succ_self _

/-- `no_html` (lines 30-37): line-break and paragraph markup become
newlines, all remaining markup is stripped.  (The `text == None` branch of
the source is the same empty result and is subsumed by the empty string.) -/
def no_html (text : String) : String :=
  if text = "" then ""
  else
    String.mk (sub_tags
      ((((text.replace "<br />" "\n").replace "<br>" "\n").replace
          "<br >" "\n").replace "<p>" "\n\n").data)

/-- One element of `req.get("komunikaty", [])` of the alerts feed.  The two
period bounds are parsed with `strptime(...).timestamp()` and carried as
epoch seconds. -/
structure AlertMsg where
  tytul : String
  tresc : String
  data_rozpoczecia : Int
  data_zakonczenia : Int
deriving DecidableEq

/-- `RTParser.alerts` (lines 162-178) over an already-fetched feed: one
alert entity per message, in feed order. -/
def alerts_run (feed : List AlertMsg) : List Entity :=
  feed.enum.map
    (fun p =>
      Entity.alert
        { id := "ALERT_" ++ toString p.1,
          header := p.2.tytul,
          description := no_html p.2.tresc,
          period_start := p.2.data_rozpoczecia,
          period_end := p.2.data_zakonczenia })

/-- The entities produced for one `trip_delays` item by the loop body of
`RTParser.updates` (lines 263-293): sort the accumulated stop updates by
estimated time, emit the trip-update entity (trip-level delay = delay of
the first sorted update, timestamp = minimum update timestamp), then emit
the companion vehicle entity when `self.trip_vehicle[trip_id]` is a stored
vehicle.  `none` models the uncaught `IndexError`/`ValueError` of
`stop_updates[0]` / `min([])` on an empty list and the uncaught `KeyError`
of the unguarded `self.trip_vehicle[trip_id]` lookup. -/
def update_entity (st : RTState) (idx : Nat) (trip_id : String)
    (stop_updates : List StopUpdate) : Option (List Entity) :=
  match sort_stop_updates stop_updates with
  | [] => none
  | first :: rest =>
    match ((first :: rest).map (fun u => u.timestamp)).min? with
    | none => none
    | some ts =>
      match st.trip_vehicle trip_id with
      | none => none
      | some veh_id =>
        match st.vehicles veh_id with
        | none =>
          some [Entity.trip_update
            { id := "UPDATE_" ++ toString idx,
              trip_id := trip_id,
              timestamp := ts,
              delay := first.delay,
              stop_time_update := first :: rest }]
        | some veh =>
          some [Entity.trip_update
            { id := "UPDATE_" ++ toString idx,
              trip_id := trip_id,
              timestamp := ts,
              delay := first.delay,
              stop_time_update := first :: rest },
            Entity.vehicle
              { id := "VEHICLE_" ++ toString idx,
                trip_id := trip_id,
                lat := veh.lat,
                lon := veh.lon,
                speed := veh.speed,
                vehicle_id := veh_id,
                label := veh.code,
                timestamp := veh.timestamp }]

/-- The `enumerate(self.trip_delays.items())` loop of `RTParser.updates`. -/
def updates_go (st : RTState) (idx : Nat) :
    List (String × List StopUpdate) → Option (List Entity)
  | [] => some []
  | (trip_id, sus) :: rest =>
    match update_entity st idx trip_id sus with
    | none => none
    | some ents =>
      match updates_go st (idx + 1) rest with
      | none => none
      | some rest_ents => some (ents ++ rest_ents)

/-- `RTParser.updates` (lines 260-293): entities appended to the container,
in dictionary iteration order. -/
def updates_run (st : RTState) : Option (List Entity) :=
  updates_go st 0 st.trip_delays

/-- The produced `FeedMessage`: header timestamp plus the entity list. -/
structure FeedMessage where
  timestamp : Int
  entity : List Entity

/-- The result of one network fetch (`requests.get` + `raise_for_status`):
either the decoded payload or an uncaught requests exception. -/
inductive Fetch (α : Type)
  | ok (a : α)
  | failed

/-- The uncaught Python exceptions that can escape a cycle or the loop. -/
inductive RTError
  | fetchError
  | valueError
  | keyError
deriving DecidableEq

/-- `RTParser.create` (lines 308-314) over the outcomes of the three feed
fetches: `init_container` discards the previous container, `alerts`,
`load_delays` and `load_vehicles` run in order (each aborting the cycle on
an uncaught exception), `updates` emits the delay and vehicle entities, and
the container is dumped.  The persistent `RTState` is returned as mutated:
the source never clears `trip_vehicle`, `trip_delays` or `vehicles`. -/
def create_cycle (stop_trips : StopKey → Option String) (st : RTState)
    (now : Now) (header_ts : Int)
    (alerts_feed : Fetch (List AlertMsg))
    (delays_feed : Fetch (List (String × List DelayRecord)))
    (vehicles_feed : Fetch (List VehicleReport)) :
    Except RTError (RTState × FeedMessage) :=
  match alerts_feed with
  | .failed => .error .fetchError
  | .ok amsgs =>
    match delays_feed with
    | .failed => .error .fetchError
    | .ok dfeed =>
      match load_delays_run stop_trips now st dfeed with
      | none => .error .valueError
      | some st1 =>
        match vehicles_feed with
        | .failed => .error .fetchError
        | .ok vfeed =>
          match updates_run { st1 with vehicles := load_vehicles_run st1.vehicles vfeed } with
          | none => .error .keyError
          | some upd_ents =>
            .ok ({ st1 with vehicles := load_vehicles_run st1.vehicles vfeed },
              { timestamp := header_ts, entity := alerts_run amsgs ++ upd_ents })

/-- The loop-carried state of `RTParser.loop`: the schedule index in use
and the persistent `RTParser` containers. -/
structure LoopState where
  gtfs_index : StopKey → Option String
  rt : RTState

/-- One iteration of the `while True` body of `RTParser.loop`
(lines 323-346).  `check_due` is the elapsed-time test of line 327;
`availability` is the outcome of `new_gtfs_available()` (a fetch that can
itself fail) and `reload` the outcome of `get_gtfs(); load_gtfs()`.  The
body contains no exception handler (only the `try/finally` around the whole
loop), so any error result terminates the loop after closing the archive. -/
def loop_step (self : LoopState)
    (check_due : Bool) (availability : Fetch Bool)
    (reload : Fetch (StopKey → Option String))
    (now : Now) (header_ts : Int)
    (alerts_feed : Fetch (List AlertMsg))
    (delays_feed : Fetch (List (String × List DelayRecord)))
    (vehicles_feed : Fetch (List VehicleReport)) :
    Except RTError (LoopState × FeedMessage) :=
  let gtfs_step : Except RTError (StopKey → Option String) :=
    if check_due then
      match availability with
      | .failed => .error .fetchError
      | .ok false => .ok self.gtfs_index
      | .ok true =>
        match reload with
        | .failed => .error .fetchError
        | .ok idx => .ok idx
    else .ok self.gtfs_index
  match gtfs_step with
  | .error e => .error e
  | .ok idx =>
    match create_cycle idx self.rt now header_ts alerts_feed delays_feed
        vehicles_feed with
    | .error e => .error e
    | .ok (rt1, msg) => .ok ({ gtfs_index := idx, rt := rt1 }, msg)

/-! ## Concrete instances used by the theorems below -/

/-- A trip-to-route table with two active trips on the same route. -/
def c1_tr : String → Option String :=
  fun t => if t = "T1" ∨ t = "T2" then some "R" else none

/-- Two stop-times rows filing under the same (stop, route, time) key. -/
def c1_rows : List StopTimeRow :=
  [{ trip_id := "T1", stop_id := "S", dep_h := 8, dep_m := 15, dep_s := 0 },
   { trip_id := "T2", stop_id := "S", dep_h := 8, dep_m := 15, dep_s := 0 }]

/-- A calendar-dates table whose only row for the service day is not an
added exception (in GTFS, and in the bundles written by tristargtfs.py,
exception_type `"1"` means added and `"2"` means removed). -/
def c2_rows : List CalendarDateRow :=
  [{ date := "20260101", service_id := "S1", exception_type := "2" }]

/-- An accumulated stop update whose estimated time is before 24:00 but
matches the wraparound pattern. -/
def c4_prev : List StopUpdate :=
  [{ stop_id := "S1", timestamp := 0, delay := 60, estimated := "20:30" }]

/-- A schedule index with a single departure: trip T1 of route R1 leaves
stop S1 at 08:15. -/
def c6_index : StopKey → Option String :=
  fun k => if k = ("S1", "R1", "08:15") then some "T1" else none

/-- A delay report matching the `c6_index` departure, timestamped 08:20:00
(30000 s). -/
def c6_delay : DelayRecord :=
  { routeId := "R1", theoreticalTime := "08:15", ts_seconds := 30000,
    estimatedTime := "08:17", delayInSeconds := 120, vehicleId := "V1" }

/-- The wall clock at cycle time: day index 20000, 08:30:00 local. -/
def c6_now : Now := { day := 20000, sec := 30600 }

/-- First cycle: the delay feed delivers the one matching report. -/
def c6_cycle1 : Except RTError (RTState × FeedMessage) :=
  create_cycle c6_index rt_init c6_now 0 (.ok []) (.ok [("S1", [c6_delay])]) (.ok [])

/-- The persistent state after the first cycle. -/
def c6_state1 : RTState :=
  match c6_cycle1 with
  | .ok (st, _) => st
  | .error _ => rt_init

/-- Second cycle: all three feeds succeed but are empty. -/
def c6_cycle2 : Except RTError (RTState × FeedMessage) :=
  create_cycle c6_index c6_state1 c6_now 0 (.ok []) (.ok []) (.ok [])

/-- The persistent state after the second cycle. -/
def c6_state2 : RTState :=
  match c6_cycle2 with
  | .ok (st, _) => st
  | .error _ => rt_init

/-- The feed published by the second cycle. -/
def c6_feed2 : List Entity :=
  match c6_cycle2 with
  | .ok (_, msg) => msg.entity
  | .error _ => []

/-- The stop update accumulated for T1 by the first cycle. -/
def c6_rec : StopUpdate :=
  { stop_id := "S1", timestamp := day_timestamp 20000 30000, delay := 120,
    estimated := "08:17" }

/-- An initial loop state over an empty schedule index. -/
def c5_state : LoopState :=
  { gtfs_index := emptyDict, rt := rt_init }

/-- Two accumulated stop updates for one trip, out of order by estimated
time. -/
def c9_u1 : StopUpdate :=
  { stop_id := "A", timestamp := 100, delay := 60, estimated := "08:20" }

/-- See `c9_u1`. -/
def c9_u2 : StopUpdate :=
  { stop_id := "B", timestamp := 90, delay := 30, estimated := "08:10" }

/-- A realtime state holding the two updates of trip T1 (vehicle V1, no
stored positions). -/
def c9_st : RTState :=
  { trip_vehicle := dictSet emptyDict "T1" "V1",
    trip_delays := [("T1", [c9_u1, c9_u2])],
    vehicles := emptyDict }

/-- The trip-update entity `updates` emits for `c9_st`. -/
def c9_tu : TripUpdateEntity :=
  { id := "UPDATE_0", trip_id := "T1", timestamp := 90, delay := 30,
    stop_time_update := [c9_u2, c9_u1] }

/-- The entity list `updates` emits for `c9_st`. -/
def c9_ents : List Entity := [Entity.trip_update c9_tu]

/-- The state produced by running `load_delays` from the initial state on a
one-report feed. -/
def c10_res : RTState :=
  match load_delays_run c6_index c6_now rt_init [("S1", [c6_delay])] with
  | some st => st
  | none => rt_init

/-- The feed published by the second cycle (message form). -/
def c6_msg2 : FeedMessage :=
  match c6_cycle2 with
  | .ok (_, msg) => msg
  | .error _ => { timestamp := 0, entity := [] }

/-- State `b` extends state `a`: every accumulated per-trip delay list of
`a` is still present in `b`, possibly with further records appended. -/
def delays_extends (a b : RTState) : Prop :=
  ∀ t l, alGet a.trip_delays t = some l → ∃ l2, alGet b.trip_delays t = some (l ++ l2)

/-- Every trip with accumulated delay records has a recorded vehicle id:
the key-coverage invariant that keeps the unguarded
`self.trip_vehicle[trip_id]` lookup of `updates` (line 278) from raising. -/
def tv_covers (st : RTState) : Prop :=
  ∀ p ∈ st.trip_delays, st.trip_vehicle p.1 ≠ none

/-! ## Helper lemmas -/

theorem foldl_stop_trips (tr : String → Option String) :
    ∀ (rows : List StopTimeRow) (m : StopKey → Option String) (k : StopKey),
      List.foldl (stop_trips_step tr) m rows k =
        match last_match tr k rows with
        | some t => some t
        | none => m k := by
  intro rows
  induction rows with
  | nil => intro m k; rfl
  | cons row rest ih =>
    intro m k
    show List.foldl (stop_trips_step tr) (stop_trips_step tr m row) rest k = _
    rw [ih]
    cases hlm : last_match tr k rest with
    | some t => simp [last_match, hlm]
    | none =>
      simp only [last_match, hlm]
      unfold stop_trips_step
      cases hk : stop_key tr row with
      | none => simp
      | some k0 =>
        simp only [dictSet]
        by_cases hkk : k = k0
        · subst hkk; simp
        · have h2 : ¬(k0 = k) := fun h => hkk h.symm
          simp [hkk, h2]

theorem load_stop_trips_eq (tr : String → Option String) (rows : List StopTimeRow)
    (k : StopKey) : load_stop_trips tr rows k = last_match tr k rows := by
  unfold load_stop_trips
  rw [foldl_stop_trips]
  cases last_match tr k rows <;> rfl

theorem last_match_trip (tr : String → Option String) (k : StopKey) :
    ∀ (rows : List StopTimeRow) (t : String),
      last_match tr k rows = some t → ∃ row ∈ rows, row.trip_id = t := by
  intro rows
  induction rows with
  | nil => intro t h; simp [last_match] at h
  | cons row rest ih =>
    intro t h
    unfold last_match at h
    cases hlm : last_match tr k rest with
    | some t0 =>
      rw [hlm] at h
      injection h with ht
      subst ht
      obtain ⟨r, hr, hrt⟩ := ih _ hlm
      exact ⟨r, List.mem_cons_of_mem _ hr, hrt⟩
    | none =>
      rw [hlm] at h
      by_cases hk : stop_key tr row = some k
      · rw [if_pos hk] at h
        injection h with ht
        exact ⟨row, List.mem_cons_self _ _, ht⟩
      · rw [if_neg hk] at h
        cases h

/-! ## Claims -/

/-- C1 (amended): the matcher looks up (stop id, route id, theoretical
time) in the schedule index; no matching scheduled departure drops the
report, and when several departures share the key the report goes to the
LAST-seen trip in stop-times iteration order (line 123 overwrites on
insert), not the first-seen one.  Trip ids are assumed non-empty (an empty
trip id would additionally be dropped by the falsy check of line 198). -/
theorem c1_match_last_seen (tr : String → Option String) (rows : List StopTimeRow)
    (stop route time : String) (hne : ∀ row ∈ rows, row.trip_id ≠ "") :
    match_report (load_stop_trips tr rows) stop route time =
      last_match tr (stop, route, time) rows := by
  unfold match_report
  rw [load_stop_trips_eq]
  cases hlm : last_match tr (stop, route, time) rows with
  | none => rfl
  | some t =>
    obtain ⟨row, hrow, rfl⟩ := last_match_trip _ _ rows t hlm
    show (if row.trip_id = "" then none else some row.trip_id) = some row.trip_id
    rw [if_neg (hne row hrow)]

/-- Witness for C1: on the two-row collision table the matcher follows the
last-match characterization. -/
theorem c1_match_last_seen_witness :
    match_report (load_stop_trips c1_tr c1_rows) "S" "R" "08:15" =
      last_match c1_tr ("S", "R", "08:15") c1_rows :=
  c1_match_last_seen c1_tr c1_rows "S" "R" "08:15" (by decide)

/-- Counterexample to C1 as stated: two departures share the key
(S, R, 08:15); the report is matched to trip T2, the last-seen one, not to
the first-seen trip T1. -/
theorem c1_counterexample :
    match_report (load_stop_trips c1_tr c1_rows) "S" "R" "08:15" = some "T2" ∧
      c1_rows.map StopTimeRow.trip_id = ["T1", "T2"] ∧ ("T2" : String) ≠ "T1" := by
  decide

/-- C2 (amended): the set of active services contains exactly the services
with SOME calendar-exceptions row dated on the service day — the exception
type is never consulted (line 85). -/
theorem c2_active_services (rows : List CalendarDateRow) (today_str s : String) :
    s ∈ load_services rows today_str ↔
      ∃ row ∈ rows, row.date = today_str ∧ row.service_id = s := by
  unfold load_services
  simp only [List.mem_map, List.mem_filter, beq_iff_eq]
  constructor
  · rintro ⟨row, ⟨hmem, hdate⟩, hid⟩
    exact ⟨row, hmem, hdate, hid⟩
  · rintro ⟨row, hmem, hdate, hid⟩
    exact ⟨row, ⟨hmem, hdate⟩, hid⟩

/-- Counterexample to C2 as stated: a calendar-dates row with a matching
date but exception type "2" (removed, not added) still makes its service
active. -/
theorem c2_counterexample :
    "S1" ∈ load_services c2_rows "20260101" ∧
      ∀ row ∈ c2_rows, row.exception_type = "2" := by
  decide

/-- C3 (amended): `readable_time` wraps the hour modulo 24 (line 27), so a
post-midnight departure is keyed IDENTICALLY to a departure at the same
wall-clock time earlier that day, not distinctly. -/
theorem c3_readable_time_wraps (h m s : Nat) :
    readable_time (h + 24) m s = readable_time h m s := by
  unfold readable_time
  rw [Nat.add_mod_right]

/-- Counterexample to C3 as stated: the 25:10 departure is keyed "01:10"
(hour not kept above 23) and collides with a 1:10 departure. -/
theorem c3_counterexample :
    readable_time 25 10 0 = "01:10" ∧ readable_time 25 10 0 = readable_time 1 10 0 := by
  decide

/-- C7 (amended): the day assignment compares times of day after adding the
2-minute tolerance MODULO 24 h; whenever the shifted clock does not cross
midnight the claimed rule holds — a report more than 2 minutes in the
future goes to the previous day, any other report to the current day. -/
theorem c7_update_day_no_wrap (now : Now) (u : Nat) (hnw : now.sec + 120 < 86400) :
    (now.sec + 120 < u → update_day now u = now.day - 1) ∧
    (u ≤ now.sec + 120 → update_day now u = now.day) := by
  unfold update_day
  rw [Nat.mod_eq_of_lt hnw]
  constructor
  · intro h; rw [if_pos h]
  · intro h; rw [if_neg (not_lt.mpr h)]

/-- Witness for C7: at 08:30:00 a report timestamped 08:36:40 goes to the
previous day and one timestamped 08:20:00 stays on the current day. -/
theorem c7_update_day_no_wrap_witness :
    update_day { day := 0, sec := 30600 } 31000 = 0 - 1 ∧
      update_day { day := 0, sec := 30600 } 30000 = 0 :=
  ⟨(c7_update_day_no_wrap { day := 0, sec := 30600 } 31000 (by decide)).1 (by decide),
   (c7_update_day_no_wrap { day := 0, sec := 30600 } 30000 (by decide)).2 (by decide)⟩

/-- Counterexample to C7 as stated: at 23:59:00 (86340 s) the shifted clock
wraps to 00:01:00, so a report timestamped 12:00:00 (43200 s) — hours in
the PAST — is assigned to the previous calendar day instead of the current
one. -/
theorem c7_counterexample :
    update_day { day := 0, sec := 86340 } 43200 = 0 - 1 ∧ 43200 < 86340 := by
  decide

/-- C8: the service day is the current calendar date except strictly before
04:00 local time (minutes within the hour given `minute < 60`), when it is
the previous date; in particular 03:59 uses the previous date and 04:01 the
current one. -/
theorem c8_service_day_boundary (day : Int) (hour minute : Nat) (hm : minute < 60) :
    (hour * 60 + minute < 240 → service_day day hour minute = day - 1) ∧
    (240 ≤ hour * 60 + minute → service_day day hour minute = day) ∧
    service_day day 3 59 = day - 1 ∧ service_day day 4 1 = day := by
  unfold service_day
  refine ⟨?_, ?_, by simp, by simp⟩
  · intro h
    rw [if_pos (by omega)]
  · intro h
    rw [if_neg (by omega)]

/-- Witness for C8: at 03:59 the previous date is used, at 04:01 the
current one. -/
theorem c8_service_day_boundary_witness :
    service_day 0 3 59 = 0 - 1 ∧ service_day 0 4 1 = 0 :=
  ⟨(c8_service_day_boundary 0 3 59 (by decide)).2.2.1,
   (c8_service_day_boundary 0 4 1 (by decide)).2.2.2⟩

/-- C4 (amended): the 24-hour shift is applied to a new estimate if and
only if SOME previously recorded estimate for the trip matches the pattern
2\d:\d\d — i.e. its hour field is 20 through 29, not only 24:00 and later —
and the shift is applied regardless of the new estimate's own value. -/
theorem c4_fix_estimate (prev : List StopUpdate) (e : String) (h m : Nat)
    (hp : parse_hm e = some (h, m)) :
    ((∃ u ∈ prev, matches2d u.estimated = true) →
        fix_estimate prev e = some (fmtHM (h + 24) m)) ∧
    ((∀ u ∈ prev, matches2d u.estimated = false) → fix_estimate prev e = some e) := by
  unfold fix_estimate
  constructor
  · rintro ⟨u, hu, hu2⟩
    rw [if_pos (List.any_eq_true.mpr ⟨u, hu, hu2⟩), hp]
    rfl
  · intro hall
    have hfalse : prev.any (fun u => matches2d u.estimated) = false := by
      rw [List.any_eq_false]
      intro u hu
      simp [hall u hu]
    rw [if_neg (by simp [hfalse])]

/-- Witness for C4: a prior 20:30 estimate forces the shift of a new 21:00
estimate; with no prior records the estimate is kept. -/
theorem c4_fix_estimate_witness :
    fix_estimate c4_prev "21:00" = some (fmtHM (21 + 24) 0) ∧
      fix_estimate [] "21:00" = some "21:00" :=
  ⟨(c4_fix_estimate c4_prev "21:00" 21 0 (by decide)).1 (by decide),
   (c4_fix_estimate [] "21:00" 21 0 (by decide)).2 (by decide)⟩

/-- Counterexample to C4 as stated: the only recorded estimate is 20:30 —
strictly below 24:00 — yet the next estimate 21:00 is shifted to 45:00,
although the claim says it must never be shifted in this situation. -/
theorem c4_counterexample :
    fix_estimate c4_prev "21:00" = some "45:00" ∧
      c4_prev.map StopUpdate.estimated = ["20:30"] := by
  decide

/-- C5 (amended): the loop body has no exception handler, so a fetch
failure during a due schedule reload — and likewise a fetch failure of a
live feed inside the cycle — propagates out of `loop` as an uncaught
exception and terminates the loop; the previous snapshot is NOT used to
complete the cycle. -/
theorem c5_failures_terminate_loop (self : LoopState) (now : Now) (hts : Int)
    (af : Fetch (List AlertMsg)) (df : Fetch (List (String × List DelayRecord)))
    (vf : Fetch (List VehicleReport)) (avail : Fetch Bool)
    (reload : Fetch (StopKey → Option String)) :
    loop_step self true (.ok true) .failed now hts af df vf = .error .fetchError ∧
    loop_step self false avail reload now hts .failed df vf = .error .fetchError := by
  exact ⟨rfl, rfl⟩

/-- Counterexample to C5 as stated: a failing non-initial schedule reload
makes the whole loop iteration evaluate to an uncaught error — the cycle is
not completed with the previously loaded snapshot, and the loop terminates. -/
theorem c5_counterexample :
    loop_step c5_state true (.ok true) .failed c6_now 0 (.ok []) (.ok []) (.ok [])
      = .error .fetchError := by
  rfl

theorem alGet_cons_pos {β : Type} (r : String × β) (rs : List (String × β))
    (q : String) (hr : r.1 = q) : alGet (r :: rs) q = some r.2 := by
  unfold alGet
  rw [List.find?_cons_of_pos _ (by simp [hr])]
  rfl

theorem alGet_cons_neg {β : Type} (r : String × β) (rs : List (String × β))
    (q : String) (hr : r.1 ≠ q) : alGet (r :: rs) q = alGet rs q := by
  unfold alGet
  rw [List.find?_cons_of_neg _ (by simp [hr])]

theorem alGet_map_set {β : Type} (k : String) (v : β) (q : String) (hq : q ≠ k) :
    ∀ m : List (String × β),
      alGet (m.map (fun p => if p.1 == k then (k, v) else p)) q = alGet m q := by
  intro m
  induction m with
  | nil => rfl
  | cons r rs ih =>
    by_cases hr : r.1 = k
    · have hhead : (if (r.1 == k) = true then (k, v) else r) = (k, v) :=
        if_pos (beq_iff_eq.mpr hr)
      rw [List.map_cons, hhead, alGet_cons_neg (k, v) _ q (Ne.symm hq), ih,
        alGet_cons_neg r rs q (hr ▸ Ne.symm hq)]
    · have hhead : (if (r.1 == k) = true then (k, v) else r) = r :=
        if_neg (by simp [hr])
      rw [List.map_cons, hhead]
      by_cases hrq : r.1 = q
      · rw [alGet_cons_pos r _ q hrq, alGet_cons_pos r rs q hrq]
      · rw [alGet_cons_neg r _ q hrq, alGet_cons_neg r rs q hrq]
        exact ih

theorem alGet_alSet {β : Type} (k q : String) (v : β) :
    ∀ m : List (String × β),
      alGet (alSet m k v) q = if q = k then some v else alGet m q := by
  intro m
  induction m with
  | nil =>
    show alGet ([] ++ [(k, v)]) q = _
    rw [List.nil_append]
    by_cases hq : q = k
    · rw [if_pos hq, alGet_cons_pos (k, v) [] q hq.symm]
    · rw [if_neg hq, alGet_cons_neg (k, v) [] q (Ne.symm hq)]
  | cons r rs ih =>
    by_cases hr : r.1 = k
    · have hfind : ((r :: rs).find? (fun p => p.1 == k)).isSome = true := by
        rw [List.find?_cons_of_pos _ (by simp [hr])]
        rfl
      unfold alSet
      rw [if_pos hfind]
      simp only [List.map_cons, if_pos (beq_iff_eq.mpr hr)]
      by_cases hq : q = k
      · rw [if_pos hq, alGet_cons_pos (k, v) _ q hq.symm]
      · rw [if_neg hq, alGet_cons_neg (k, v) _ q (Ne.symm hq),
          alGet_map_set k v q hq rs, alGet_cons_neg r rs q (hr ▸ Ne.symm hq)]
    · have hstep : alSet (r :: rs) k v = r :: alSet rs k v := by
        unfold alSet
        rw [List.find?_cons_of_neg _ (by simp [hr])]
        by_cases hf : (rs.find? (fun p => p.1 == k)).isSome
        · rw [if_pos hf, if_pos hf, List.map_cons, if_neg (by simpa using hr)]
        · rw [if_neg hf, if_neg hf, List.cons_append]
      rw [hstep]
      by_cases hrq : r.1 = q
      · have hqk : q ≠ k := fun h => hr (hrq.trans h)
        rw [if_neg hqk, alGet_cons_pos r _ q hrq, alGet_cons_pos r rs q hrq]
      · rw [alGet_cons_neg r _ q hrq, ih]
        by_cases hq : q = k
        · rw [if_pos hq, if_pos hq]
        · rw [if_neg hq, if_neg hq, alGet_cons_neg r rs q hrq]

theorem alSet_mem {β : Type} (m : List (String × β)) (k : String) (v : β) :
    ∀ p ∈ alSet m k v, p.1 = k ∨ p ∈ m := by
  intro p hp
  unfold alSet at hp
  split at hp
  · obtain ⟨q, hq, hfq⟩ := List.mem_map.mp hp
    by_cases hqk : q.1 == k
    · rw [if_pos hqk] at hfq
      left
      rw [← hfq]
    · rw [if_neg hqk] at hfq
      right
      rw [← hfq]
      exact hq
  · rcases List.mem_append.mp hp with hin | hin
    · right; exact hin
    · left
      rw [List.mem_singleton.mp hin]

theorem delays_extends_refl (st : RTState) : delays_extends st st :=
  fun _ l hl => ⟨[], by simpa⟩

theorem delays_extends_trans {a b c : RTState}
    (h1 : delays_extends a b) (h2 : delays_extends b c) : delays_extends a c := by
  intro t l hl
  obtain ⟨l2, hb⟩ := h1 t l hl
  obtain ⟨l3, hc⟩ := h2 t (l ++ l2) hb
  exact ⟨l2 ++ l3, by rw [← List.append_assoc]; exact hc⟩

theorem process_delay_extends (stop_trips : StopKey → Option String) (now : Now)
    (st : RTState) (stop_id : String) (d : DelayRecord) (st' : RTState)
    (h : process_delay stop_trips now st stop_id d = some st') :
    delays_extends st st' := by
  unfold process_delay at h
  cases hm : match_report stop_trips stop_id d.routeId d.theoreticalTime with
  | none =>
    rw [hm] at h
    injection h with h
    subst h
    exact delays_extends_refl st
  | some trip_id =>
    rw [hm] at h
    simp only [] at h
    cases hf : fix_estimate ((alGet st.trip_delays trip_id).getD []) d.estimatedTime with
    | none => rw [hf] at h; cases h
    | some estimate =>
      rw [hf] at h
      simp only [] at h
      injection h with h
      subst h
      intro t l hl
      by_cases ht : t = trip_id
      · subst ht
        refine ⟨[{ stop_id := stop_id,
                   timestamp := day_timestamp (update_day now d.ts_seconds) d.ts_seconds,
                   delay := d.delayInSeconds,
                   estimated := estimate }], ?_⟩
        show alGet (alSet st.trip_delays t _) t = _
        rw [alGet_alSet, if_pos rfl, hl]
        rfl
      · refine ⟨[], ?_⟩
        show alGet (alSet st.trip_delays trip_id _) t = _
        rw [alGet_alSet, if_neg ht, hl, List.append_nil]

theorem load_delays_go_extends (stop_trips : StopKey → Option String) (now : Now)
    (stop_id : String) :
    ∀ (ds : List DelayRecord) (st st' : RTState),
      load_delays_go stop_trips now stop_id st ds = some st' →
      delays_extends st st' := by
  intro ds
  induction ds with
  | nil =>
    intro st st' h
    injection h with h
    subst h
    exact delays_extends_refl st
  | cons d ds ih =>
    intro st st' h
    unfold load_delays_go at h
    cases hp : process_delay stop_trips now st stop_id d with
    | none => rw [hp] at h; cases h
    | some st1 =>
      rw [hp] at h
      simp only [] at h
      exact delays_extends_trans (process_delay_extends _ _ _ _ _ _ hp) (ih st1 st' h)

theorem load_delays_run_extends (stop_trips : StopKey → Option String) (now : Now) :
    ∀ (feed : List (String × List DelayRecord)) (st st' : RTState),
      load_delays_run stop_trips now st feed = some st' →
      delays_extends st st' := by
  intro feed
  induction feed with
  | nil =>
    intro st st' h
    injection h with h
    subst h
    exact delays_extends_refl st
  | cons p rest ih =>
    intro st st' h
    obtain ⟨stop_id, ds⟩ := p
    unfold load_delays_run at h
    cases hg : load_delays_go stop_trips now stop_id st ds with
    | none => rw [hg] at h; cases h
    | some st1 =>
      rw [hg] at h
      simp only [] at h
      exact delays_extends_trans (load_delays_go_extends _ _ _ _ _ _ hg) (ih st1 st' h)

/-- C6 (amended): only the output container is rebuilt each cycle.  The
accumulated per-trip delay records (like the trip-to-vehicle and vehicle
maps, never cleared in lines 145-147 / 308-314) persist across cycles: a
successful cycle only ever EXTENDS the accumulated delay lists, so a delay
record accumulated in one cycle is still present — and is re-published —
in every later cycle. -/
theorem c6_trip_delays_persist (stop_trips : StopKey → Option String) (st : RTState)
    (now : Now) (hts : Int) (af : Fetch (List AlertMsg))
    (df : Fetch (List (String × List DelayRecord))) (vf : Fetch (List VehicleReport))
    (st' : RTState) (msg : FeedMessage)
    (h : create_cycle stop_trips st now hts af df vf = Except.ok (st', msg)) :
    delays_extends st st' := by
  unfold create_cycle at h
  cases af with
  | failed => simp at h
  | ok amsgs =>
    cases df with
    | failed => simp at h
    | ok dfeed =>
      simp only [] at h
      cases hld : load_delays_run stop_trips now st dfeed with
      | none => rw [hld] at h; simp at h
      | some st1 =>
        rw [hld] at h
        simp only [] at h
        cases vf with
        | failed => simp at h
        | ok vfeed =>
          simp only [] at h
          cases hupd : updates_run
              { st1 with vehicles := load_vehicles_run st1.vehicles vfeed } with
          | none => rw [hupd] at h; simp at h
          | some upd_ents =>
            rw [hupd] at h
            simp only [] at h
            injection h with hpair
            have hst : ({ st1 with
                vehicles := load_vehicles_run st1.vehicles vfeed } : RTState) = st' :=
              congrArg Prod.fst hpair
            subst hst
            intro t l hl
            exact load_delays_run_extends _ _ dfeed st st1 hld t l hl

/-- Witness for C6: the record accumulated for trip T1 in the first cycle
is still in the accumulated state after a second cycle whose delay feed is
empty. -/
theorem c6_trip_delays_persist_witness :
    ∃ l2, alGet c6_state2.trip_delays "T1" = some ([c6_rec] ++ l2) :=
  c6_trip_delays_persist c6_index c6_state1 c6_now 0 (.ok []) (.ok []) (.ok [])
    c6_state2 c6_msg2 rfl "T1" [c6_rec] (by decide)

/-- Counterexample to C6 as stated: the second cycle's delay feed is empty,
yet its published feed still contains the trip-update entity built from the
delay record accumulated in the FIRST cycle — per-cycle structures are not
discarded after publishing. -/
theorem c6_counterexample :
    c6_feed2 = [Entity.trip_update
      { id := "UPDATE_0", trip_id := "T1", timestamp := 1728030000, delay := 120,
        stop_time_update := [c6_rec] }] := by
  decide

theorem process_delay_covers (stop_trips : StopKey → Option String) (now : Now)
    (st : RTState) (stop_id : String) (d : DelayRecord) (st' : RTState)
    (h : process_delay stop_trips now st stop_id d = some st')
    (hinv : tv_covers st) : tv_covers st' := by
  unfold process_delay at h
  cases hm : match_report stop_trips stop_id d.routeId d.theoreticalTime with
  | none =>
    rw [hm] at h
    injection h with h
    subst h
    exact hinv
  | some trip_id =>
    rw [hm] at h
    simp only [] at h
    cases hf : fix_estimate ((alGet st.trip_delays trip_id).getD []) d.estimatedTime with
    | none => rw [hf] at h; cases h
    | some estimate =>
      rw [hf] at h
      simp only [] at h
      injection h with h
      subst h
      intro p hp
      rcases alSet_mem st.trip_delays trip_id _ p hp with hk | hk
      · show dictSet st.trip_vehicle trip_id d.vehicleId p.1 ≠ none
        unfold dictSet
        rw [if_pos hk]
        exact Option.some_ne_none _
      · show dictSet st.trip_vehicle trip_id d.vehicleId p.1 ≠ none
        unfold dictSet
        by_cases hkk : p.1 = trip_id
        · rw [if_pos hkk]; exact Option.some_ne_none _
        · rw [if_neg hkk]; exact hinv p hk

theorem load_delays_go_covers (stop_trips : StopKey → Option String) (now : Now)
    (stop_id : String) :
    ∀ (ds : List DelayRecord) (st st' : RTState),
      load_delays_go stop_trips now stop_id st ds = some st' →
      tv_covers st → tv_covers st' := by
  intro ds
  induction ds with
  | nil =>
    intro st st' h hinv
    injection h with h
    subst h
    exact hinv
  | cons d ds ih =>
    intro st st' h hinv
    unfold load_delays_go at h
    cases hp : process_delay stop_trips now st stop_id d with
    | none => rw [hp] at h; cases h
    | some st1 =>
      rw [hp] at h
      simp only [] at h
      exact ih st1 st' h (process_delay_covers _ _ _ _ _ _ hp hinv)

/-- C10: `load_delays` records the vehicle id of a matched report (line
218) BEFORE appending the report's delay record (line 232), so after any
run of the delay-loading step every trip that has accumulated delay records
also has an entry in the trip-to-vehicle map — the unguarded
`self.trip_vehicle[trip_id]` lookup of `updates` (line 278) never misses a
key. -/
theorem c10_trip_vehicle_covers (stop_trips : StopKey → Option String) (now : Now) :
    ∀ (feed : List (String × List DelayRecord)) (st st' : RTState),
      load_delays_run stop_trips now st feed = some st' →
      tv_covers st → tv_covers st' := by
  intro feed
  induction feed with
  | nil =>
    intro st st' h hinv
    injection h with h
    subst h
    exact hinv
  | cons p rest ih =>
    intro st st' h hinv
    obtain ⟨stop_id, ds⟩ := p
    unfold load_delays_run at h
    cases hg : load_delays_go stop_trips now stop_id st ds with
    | none => rw [hg] at h; cases h
    | some st1 =>
      rw [hg] at h
      simp only [] at h
      exact ih st1 st' h (load_delays_go_covers _ _ _ _ _ _ hg hinv)

/-- Witness for C10: after loading a one-report feed from the initial empty
state, the trip T1 that received a delay record has its vehicle id
recorded. -/
theorem c10_trip_vehicle_covers_witness : c10_res.trip_vehicle "T1" ≠ none :=
  c10_trip_vehicle_covers c6_index c6_now [("S1", [c6_delay])] rt_init c10_res rfl
    (by intro p hp; simp [rt_init] at hp) ("T1", [c6_rec]) (by decide)

/-- C9: every trip-update entity emitted by `updates` carries its stop
updates sorted ascending by estimated time (the `"HH:MM"` strings compared
as Python compares them), and its trip-level delay is the delay of the
first — earliest by estimated time — stop update of that sorted list
(lines 267-271). -/
theorem c9_updates_sorted (st : RTState) :
    ∀ (td : List (String × List StopUpdate)) (idx : Nat) (ents : List Entity),
      updates_go st idx td = some ents →
      ∀ tu : TripUpdateEntity, Entity.trip_update tu ∈ ents →
        List.Sorted est_le tu.stop_time_update ∧
          tu.stop_time_update.head?.map (fun u => u.delay) = some tu.delay := by
  intro td
  induction td with
  | nil =>
    intro idx ents h tu htu
    injection h with h
    subst h
    cases htu
  | cons p rest ih =>
    intro idx ents h tu htu
    obtain ⟨trip_id, sus⟩ := p
    unfold updates_go at h
    cases hent : update_entity st idx trip_id sus with
    | none => rw [hent] at h; cases h
    | some ents0 =>
      rw [hent] at h
      simp only [] at h
      cases hrest : updates_go st (idx + 1) rest with
      | none => rw [hrest] at h; cases h
      | some rest_ents =>
        rw [hrest] at h
        simp only [] at h
        injection h with h
        subst h
        rcases List.mem_append.mp htu with hin | hin
        · unfold update_entity at hent
          cases hsort : sort_stop_updates sus with
          | nil => rw [hsort] at hent; cases hent
          | cons first rest1 =>
            rw [hsort] at hent
            simp only [] at hent
            have hsorted : List.Sorted est_le (first :: rest1) := by
              rw [← hsort]
              exact List.sorted_insertionSort est_le sus
            cases hmin : (((first :: rest1)).map (fun u => u.timestamp)).min? with
            | none => rw [hmin] at hent; cases hent
            | some ts =>
              rw [hmin] at hent
              simp only [] at hent
              cases htv : st.trip_vehicle trip_id with
              | none => rw [htv] at hent; cases hent
              | some veh_id =>
                rw [htv] at hent
                simp only [] at hent
                cases hveh : st.vehicles veh_id with
                | none =>
                  rw [hveh] at hent
                  simp only [] at hent
                  injection hent with hent
                  subst hent
                  rcases List.mem_singleton.mp hin with hin2
                  injection hin2 with hin2
                  subst hin2
                  exact ⟨hsorted, rfl⟩
                | some veh =>
                  rw [hveh] at hent
                  simp only [] at hent
                  injection hent with hent
                  subst hent
                  rcases List.mem_cons.mp hin with hin2 | hin2
                  · injection hin2 with hin2
                    subst hin2
                    exact ⟨hsorted, rfl⟩
                  · rcases List.mem_singleton.mp hin2 with hin3
                    cases hin3
        · exact ih (idx + 1) rest_ents hrest tu hin

/-- Witness for C9: the entity built for trip T1 of `c9_st` has its two
stop updates reordered ascending by estimated time and carries the delay of
the earliest one. -/
theorem c9_updates_sorted_witness :
    List.Sorted est_le c9_tu.stop_time_update ∧
      c9_tu.stop_time_update.head?.map (fun u => u.delay) = some c9_tu.delay :=
  c9_updates_sorted c9_st c9_st.trip_delays 0 c9_ents (by decide) c9_tu (by decide)

end TristarRT
